import Mathlib

/-!
Verification of the weather web application in `src/main.py`.

The program is a Flask app. Its handlers are embedded here as pure functions:
the provider's HTTP response, the JSON request body and the database table are
explicit arguments, and each handler returns an `Outcome` recording the HTTP
status, the rendered body, whether the outbound network call was reached, and
the row (if any) inserted into the `weather` table.

Temperatures are floats in the source; only `min`, `max` and equality are ever
applied to them, so they are modelled as rationals, which is order-faithful.
-/

/-- One entry of the provider's forecast `list`: its `dt_txt` string and its
`main.temp` temperature. -/
structure RawItem where
  dt_txt : String
  temp : ℚ
deriving DecidableEq, Repr

/-- Python `s.split()[0]`: `split()` with no argument splits on runs of
whitespace dropping empty tokens, so the first token is what remains after
stripping leading whitespace, up to the next whitespace character. `none`
models the `IndexError` raised when the string holds no token. -/
def pySplitFirst (s : String) : Option String :=
  match s.data.dropWhile Char.isWhitespace with
  | [] => none
  | cs => some (String.mk (cs.takeWhile (fun c => !c.isWhitespace)))

/-- `item["dt_txt"].split()[0]`: the date component of a forecast entry.
`none` models the `IndexError` path (that exception is caught by the
handler's `except`, giving a 500). -/
def itemDate (it : RawItem) : Option String :=
  pySplitFirst it.dt_txt

/-- Python `s.strip()`: remove leading and trailing whitespace. -/
def pyStrip (s : String) : String :=
  String.mk (((s.data.dropWhile Char.isWhitespace).reverse.dropWhile
    Char.isWhitespace).reverse)

/-- A per-day summary as built by `daily_weather`:
`{"date": k, "min": v["min"], "max": v["max"]}`. -/
structure DailySummary where
  date : String
  min : ℚ
  max : ℚ
deriving DecidableEq, Repr

/-- The running `daily` dict of the aggregation loop: an association list in
insertion order (Python dicts preserve insertion order), mapping a date to its
running `(min, max)` pair. -/
abbrev DailyAcc := List (String × ℚ × ℚ)

/-- One iteration of `for item in raw` on an already extracted
`(date, temp)` pair:
`if date not in daily: daily[date] = {"min": temp, "max": temp}`
`else: daily[date]["min"] = min(...); daily[date]["max"] = max(...)`. -/
def dailyStep (acc : DailyAcc) (date : String) (temp : ℚ) : DailyAcc :=
  if acc.any (fun e => e.1 = date) then
    acc.map (fun e =>
      if e.1 = date then (e.1, Min.min e.2.1 temp, Max.max e.2.2 temp) else e)
  else
    acc ++ [(date, temp, temp)]

/-- The whole aggregation loop over extracted `(date, temp)` pairs. -/
def dailyFold (pairs : List (String × ℚ)) : DailyAcc :=
  pairs.foldl (fun acc p => dailyStep acc p.1 p.2) []

/-- The list comprehension building `daily_list` from the `daily` dict. -/
def toSummaries (acc : DailyAcc) : List DailySummary :=
  acc.map (fun e => ⟨e.1, e.2.1, e.2.2⟩)

/-- Extraction of `(date, temp)` from each forecast entry, in order; the first
entry whose `split()[0]` raises aborts the whole computation (the handler's
`except` turns that into a 500 response). -/
def extractPairs : List RawItem → Option (List (String × ℚ))
  | [] => some []
  | it :: rest =>
    match itemDate it with
    | none => none
    | some d => (extractPairs rest).map (fun ps => (d, it.temp) :: ps)

/-- The aggregation body of `daily_weather` (lines 179-190 of `src/main.py`):
group the forecast entries by the date component of `dt_txt`, tracking running
min and max per date; `none` is the exceptional (500) path. -/
def dailyAggregate (raw : List RawItem) : Option (List DailySummary) :=
  (extractPairs raw).map (fun pairs => toSummaries (dailyFold pairs))

/-- All date components occurring in the input, in input order. -/
def datesOf (raw : List RawItem) : List String :=
  raw.filterMap itemDate

/-- First-occurrence order of the elements of a list (the spec's
"preserving first-occurrence order of dates"): each element appears once, at
the position of its first occurrence. -/
def firstOccs (l : List String) : List String :=
  l.foldl (fun acc d => if d ∈ acc then acc else acc ++ [d]) []

/-- A row of the `weather` table: `(city, temperature, description, dt)`.
`temperature` is nullable (the column is an unconstrained REAL and
`/api/weather` inserts `None` when `main.temp` is absent). -/
structure WeatherRecord where
  city : String
  temperature : Option ℚ
  description : String
  dt : String
deriving DecidableEq, Repr

/-- Provider response for the current-weather endpoint, reduced to the fields
the handlers read: the HTTP status, `main.temp` when present (`none` covers
both a missing `main` object and a missing `temp` key, which the handlers
treat alike), and the `weather` array as the list of its entries' optional
`description` fields (an absent array behaves like an empty one in both
handlers). -/
structure OwmCurrent where
  status_code : Nat
  mainTemp : Option ℚ
  weatherDescs : List (Option String)
deriving DecidableEq, Repr

/-- Provider response for the forecast endpoint: HTTP status and
`resp.json().get("list", [])` (an absent `list` is the empty list). -/
structure OwmForecast where
  status_code : Nat
  list : List RawItem
deriving DecidableEq, Repr

/-- `(js.get("weather") or [{}])[0].get("description", "")`: the first
entry's description, or `""` when the array is absent or empty or its first
entry lacks the key. -/
def descOf (w : List (Option String)) : String :=
  match w.head? with
  | some (some d) => d
  | _ => ""

/-- What a handler produced: HTTP status, response body, whether the outbound
`requests.get` call was reached, and the row inserted into `weather` (if any). -/
structure Outcome (β : Type) where
  status : Nat
  body : β
  networkCalled : Bool
  inserted : Option WeatherRecord
deriving DecidableEq, Repr

/-- JSON body returned by `POST /api/weather`. -/
inductive ApiBody where
  | errMsg (msg : String)
  | ok (record : WeatherRecord)
deriving DecidableEq, Repr

/-- `POST /api/weather` (lines 57-89): `bodyCity` is `data.get("city", "")`
(`none` when the JSON body has no `city` field), `provider` the response the
network call would return, `now` the formatted current time. -/
def api_weather (bodyCity : Option String) (provider : OwmCurrent) (now : String) :
    Outcome ApiBody :=
  let city := pyStrip (bodyCity.getD "")
  if city = "" then
    ⟨400, .errMsg "City required", false, none⟩
  else if provider.status_code ≠ 200 then
    ⟨404, .errMsg "City not found or API error", true, none⟩
  else
    let out : WeatherRecord :=
      ⟨city, provider.mainTemp, descOf provider.weatherDescs, now⟩
    ⟨200, .ok out, true, some out⟩

/-- Body returned by `GET /weather/<city>`. -/
inductive ShowBody where
  | noData (city : String)
  | page (record : WeatherRecord)
  | err
deriving DecidableEq, Repr

/-- `GET /weather/<city>` (lines 92-124). Unlike `/api/weather` it indexes
`js["main"]["temp"]` and `js["weather"][0]["description"]` directly, so a
missing field raises and the `except` returns a 500 with no insert. -/
def show_weather_page (city : String) (provider : OwmCurrent) (now : String) :
    Outcome ShowBody :=
  if provider.status_code ≠ 200 then
    ⟨404, .noData city, true, none⟩
  else
    match provider.mainTemp, provider.weatherDescs.head? with
    | some t, some (some d) =>
      let row : WeatherRecord := ⟨city, some t, d, now⟩
      ⟨200, .page row, true, some row⟩
    | _, _ => ⟨500, .err, true, none⟩

/-- Body of a forecast-backed page (`hourly`, `daily`, `weekly`): a 404 text,
a rendered template over some data, or the 500 path of the `except`. -/
inductive PageResp (α : Type) where
  | notFound (city : String)
  | page (city : String) (data : α)
  | err
deriving DecidableEq, Repr

/-- `GET /weather/<city>/daily` (lines 168-193): non-200 gives a 404 page,
otherwise the forecast list is aggregated into per-day summaries. -/
def daily_weather (city : String) (provider : OwmForecast) :
    PageResp (List DailySummary) :=
  if provider.status_code ≠ 200 then .notFound city
  else
    match dailyAggregate provider.list with
    | none => .err
    | some l => .page city l

/-- `GET /weather/<city>/weekly` (lines 196-198): `return daily_weather(city)`. -/
def weekly_weather (city : String) (provider : OwmForecast) :
    PageResp (List DailySummary) :=
  daily_weather city provider

/-- `GET /weather/<city>/hourly` (lines 152-165): renders
`resp.json().get("list", [])[:8]`. -/
def hourly_weather (city : String) (provider : OwmForecast) :
    PageResp (List RawItem) :=
  if provider.status_code ≠ 200 then .notFound city
  else .page city (provider.list.take 8)

/-- `GET /api/history` (lines 201-211):
`SELECT city, temperature, description, dt FROM weather ORDER BY id DESC LIMIT 6`.
`table` holds the rows of `weather` in ascending `id` order; `id` is
`AUTOINCREMENT`, so ascending `id` is insertion order and `ORDER BY id DESC`
is the reverse of the table. -/
def api_history (table : List WeatherRecord) : List WeatherRecord :=
  table.reverse.take 6

/-! ### Lemmas about the aggregation loop -/

/-- Loop invariant of the aggregation: every entry of the running dict has
`min ≤ max`, and its min and max values each occur with its date among the
processed `(date, temp)` pairs (all drawn from `S`). -/
theorem dailyFold_inv (S : List (String × ℚ)) :
    ∀ (pairs : List (String × ℚ)) (acc : DailyAcc),
      (∀ p ∈ pairs, p ∈ S) →
      (∀ e ∈ acc, e.2.1 ≤ e.2.2 ∧ (e.1, e.2.1) ∈ S ∧ (e.1, e.2.2) ∈ S) →
      ∀ e ∈ pairs.foldl (fun acc p => dailyStep acc p.1 p.2) acc,
        e.2.1 ≤ e.2.2 ∧ (e.1, e.2.1) ∈ S ∧ (e.1, e.2.2) ∈ S := by
  intro pairs
  induction pairs with
  | nil => intro acc _ hacc e he; exact hacc e he
  | cons p ps ih =>
    intro acc hsub hacc e he
    simp only [List.foldl_cons] at he
    have hpS : (p.1, p.2) ∈ S := by
      have := hsub p (List.mem_cons_self _ _)
      simpa using this
    refine ih (dailyStep acc p.1 p.2)
      (fun q hq => hsub q (List.mem_cons_of_mem _ hq)) ?_ e he
    intro e' he'
    unfold dailyStep at he'
    by_cases hc : acc.any (fun e => e.1 = p.1)
    · rw [if_pos hc] at he'
      obtain ⟨e0, he0, rfl⟩ := List.mem_map.mp he'
      obtain ⟨hle, hmn, hmx⟩ := hacc e0 he0
      by_cases hd : e0.1 = p.1
      · rw [if_pos hd]
        refine ⟨le_trans (min_le_left _ _) (le_trans hle (le_max_left _ _)), ?_, ?_⟩
        · rcases min_choice e0.2.1 p.2 with h | h <;> rw [h]
          · exact hmn
          · rw [hd]; exact hpS
        · rcases max_choice e0.2.2 p.2 with h | h <;> rw [h]
          · exact hmx
          · rw [hd]; exact hpS
      · rw [if_neg hd]
        exact ⟨hle, hmn, hmx⟩
    · rw [if_neg hc] at he'
      rcases List.mem_append.mp he' with h | h
      · exact hacc e' h
      · have : e' = (p.1, p.2, p.2) := by simpa using h
        subst this
        exact ⟨le_refl _, hpS, hpS⟩

/-- The `any` test of the loop is membership of the date among the dict's
keys. -/
theorem dailyStep_any_iff (acc : DailyAcc) (d : String) :
    acc.any (fun e => e.1 = d) = true ↔ d ∈ acc.map (fun e => e.1) := by
  rw [List.any_eq_true]
  constructor
  · rintro ⟨e, he, heq⟩
    exact List.mem_map.mpr ⟨e, he, by simpa using heq⟩
  · rintro h
    obtain ⟨e, he, heq⟩ := List.mem_map.mp h
    exact ⟨e, he, by simpa using heq⟩

/-- The keys of the running dict, in order, are the processed dates in
first-occurrence order (starting from the keys already in `acc`). -/
theorem dailyFold_map_fst :
    ∀ (pairs : List (String × ℚ)) (acc : DailyAcc),
      (pairs.foldl (fun acc p => dailyStep acc p.1 p.2) acc).map (fun e => e.1)
        = (pairs.map Prod.fst).foldl
            (fun a d => if d ∈ a then a else a ++ [d]) (acc.map (fun e => e.1)) := by
  intro pairs
  induction pairs with
  | nil => intro acc; rfl
  | cons p ps ih =>
    intro acc
    simp only [List.foldl_cons, List.map_cons]
    rw [ih]
    congr 1
    unfold dailyStep
    by_cases hc : p.1 ∈ acc.map (fun e => e.1)
    · rw [if_pos ((dailyStep_any_iff acc p.1).mpr hc), if_pos hc, List.map_map]
      apply List.map_congr_left
      intro e _
      by_cases hd : e.1 = p.1
      · simp [hd]
      · simp [hd]
    · rw [if_neg ?_, if_neg hc]
      · simp
      · intro h
        exact hc ((dailyStep_any_iff acc p.1).mp h)

/-- Membership in the first-occurrence fold. -/
theorem firstOccs_aux_mem (x : String) :
    ∀ (l acc : List String),
      x ∈ l.foldl (fun acc d => if d ∈ acc then acc else acc ++ [d]) acc
        ↔ x ∈ acc ∨ x ∈ l := by
  intro l
  induction l with
  | nil => intro acc; simp
  | cons d l ih =>
    intro acc
    simp only [List.foldl_cons]
    rw [ih]
    by_cases hd : d ∈ acc
    · simp only [if_pos hd]
      constructor
      · rintro (h | h)
        · exact Or.inl h
        · exact Or.inr (List.mem_cons_of_mem _ h)
      · rintro (h | h)
        · exact Or.inl h
        · rcases List.mem_cons.mp h with rfl | h
          · exact Or.inl hd
          · exact Or.inr h
    · simp only [if_neg hd, List.mem_append, List.mem_singleton, List.mem_cons]
      tauto

/-- The first-occurrence fold preserves freedom from duplicates. -/
theorem firstOccs_aux_nodup :
    ∀ (l acc : List String), acc.Nodup →
      (l.foldl (fun acc d => if d ∈ acc then acc else acc ++ [d]) acc).Nodup := by
  intro l
  induction l with
  | nil => intro acc h; exact h
  | cons d l ih =>
    intro acc hacc
    simp only [List.foldl_cons]
    by_cases hd : d ∈ acc
    · rw [if_pos hd]; exact ih acc hacc
    · rw [if_neg hd]
      refine ih _ ?_
      simp [List.nodup_append, hacc, hd]

/-- `firstOccs l` holds exactly the elements of `l`. -/
theorem mem_firstOccs (x : String) (l : List String) :
    x ∈ firstOccs l ↔ x ∈ l := by
  unfold firstOccs
  rw [firstOccs_aux_mem]
  simp

/-- `firstOccs l` has no duplicate. -/
theorem firstOccs_nodup (l : List String) : (firstOccs l).Nodup :=
  firstOccs_aux_nodup l [] List.nodup_nil

/-- `firstOccs l` has one entry per distinct element of `l`. -/
theorem firstOccs_length (l : List String) :
    (firstOccs l).length = l.toFinset.card := by
  have h1 : (firstOccs l).toFinset = l.toFinset := by
    ext x
    simp [List.mem_toFinset, mem_firstOccs]
  calc (firstOccs l).length = (firstOccs l).toFinset.card :=
        (List.toFinset_card_of_nodup (firstOccs_nodup l)).symm
    _ = l.toFinset.card := by rw [h1]

/-- Each extracted `(date, temp)` pair comes from an input item with that date
component and that temperature. -/
theorem extractPairs_mem :
    ∀ (raw : List RawItem) (pairs : List (String × ℚ)),
      extractPairs raw = some pairs →
      ∀ p ∈ pairs, ∃ it ∈ raw, itemDate it = some p.1 ∧ it.temp = p.2 := by
  intro raw
  induction raw with
  | nil =>
    intro pairs h p hp
    simp only [extractPairs, Option.some.injEq] at h
    subst h
    simp at hp
  | cons it rest ih =>
    intro pairs h p hp
    simp only [extractPairs] at h
    cases hd : itemDate it with
    | none => rw [hd] at h; simp at h
    | some d =>
      rw [hd] at h
      cases hrest : extractPairs rest with
      | none => rw [hrest] at h; simp at h
      | some ps =>
        rw [hrest] at h
        simp only [Option.map_some', Option.some.injEq] at h
        subst h
        rcases List.mem_cons.mp hp with rfl | hp
        · exact ⟨it, List.mem_cons_self _ _, hd, rfl⟩
        · obtain ⟨it', hit', h1, h2⟩ := ih ps hrest p hp
          exact ⟨it', List.mem_cons_of_mem _ hit', h1, h2⟩

/-- When extraction succeeds, the extracted dates are exactly the date
components of the input, in input order. -/
theorem extractPairs_map_fst :
    ∀ (raw : List RawItem) (pairs : List (String × ℚ)),
      extractPairs raw = some pairs →
      datesOf raw = pairs.map Prod.fst := by
  intro raw
  induction raw with
  | nil =>
    intro pairs h
    simp only [extractPairs, Option.some.injEq] at h
    subst h
    rfl
  | cons it rest ih =>
    intro pairs h
    simp only [extractPairs] at h
    cases hd : itemDate it with
    | none => rw [hd] at h; simp at h
    | some d =>
      rw [hd] at h
      cases hrest : extractPairs rest with
      | none => rw [hrest] at h; simp at h
      | some ps =>
        rw [hrest] at h
        simp only [Option.map_some', Option.some.injEq] at h
        subst h
        simp only [datesOf, List.filterMap_cons, hd, List.map_cons]
        exact congrArg (d :: ·) (ih ps hrest)

/-- Splitting a successful `dailyAggregate` into its two stages. -/
theorem dailyAggregate_eq_some (raw : List RawItem) (out : List DailySummary)
    (h : dailyAggregate raw = some out) :
    ∃ pairs, extractPairs raw = some pairs ∧ toSummaries (dailyFold pairs) = out := by
  unfold dailyAggregate at h
  cases he : extractPairs raw with
  | none => rw [he] at h; simp at h
  | some ps =>
    rw [he] at h
    simp only [Option.map_some', Option.some.injEq] at h
    exact ⟨ps, rfl, h⟩

/-! ### Claim theorems -/

/-- C1: for every input sequence of weather samples, every `DailySummary`
produced by the daily aggregation has `min ≤ max`, and both the min and the
max are temperatures taken from input samples whose date component (the part
of `dt_txt` before the space) equals that summary's date. -/
theorem daily_summary_min_le_max_from_matching_date
    (raw : List RawItem) (out : List DailySummary)
    (h : dailyAggregate raw = some out) (s : DailySummary) (hs : s ∈ out) :
    s.min ≤ s.max
    ∧ (∃ it ∈ raw, itemDate it = some s.date ∧ it.temp = s.min)
    ∧ (∃ it ∈ raw, itemDate it = some s.date ∧ it.temp = s.max) := by
  obtain ⟨pairs, hex, hout⟩ := dailyAggregate_eq_some raw out h
  subst hout
  obtain ⟨e, he, rfl⟩ := List.mem_map.mp hs
  have hinv := dailyFold_inv pairs pairs [] (fun p hp => hp)
    (fun e he => absurd he (List.not_mem_nil e)) e he
  obtain ⟨hle, hmn, hmx⟩ := hinv
  refine ⟨hle, ?_, ?_⟩
  · obtain ⟨it, hit, h1, h2⟩ := extractPairs_mem raw pairs hex (e.1, e.2.1) hmn
    exact ⟨it, hit, h1, h2⟩
  · obtain ⟨it, hit, h1, h2⟩ := extractPairs_mem raw pairs hex (e.1, e.2.2) hmx
    exact ⟨it, hit, h1, h2⟩

/-- Witness for C1 at the one-sample input `[{dt_txt:"01-01 00:00:00", temp:3}]`,
whose aggregation is `[{date:"01-01", min:3, max:3}]`. -/
theorem daily_summary_min_le_max_from_matching_date_w :
    (3 : ℚ) ≤ 3
    ∧ (∃ it ∈ [(⟨"01-01 00:00:00", 3⟩ : RawItem)],
        itemDate it = some "01-01" ∧ it.temp = 3)
    ∧ (∃ it ∈ [(⟨"01-01 00:00:00", 3⟩ : RawItem)],
        itemDate it = some "01-01" ∧ it.temp = 3) :=
  daily_summary_min_le_max_from_matching_date
    [⟨"01-01 00:00:00", 3⟩] [⟨"01-01", 3, 3⟩] (by decide)
    ⟨"01-01", 3, 3⟩ (by decide)

/-- C2: the daily aggregation produces exactly one `DailySummary` per distinct
date in the input — its dates are the input's date components in
first-occurrence order, without duplicate, and the output length is the number
of distinct date values. -/
theorem daily_one_summary_per_date_first_occurrence_order
    (raw : List RawItem) (out : List DailySummary)
    (h : dailyAggregate raw = some out) :
    out.map DailySummary.date = firstOccs (datesOf raw)
    ∧ (out.map DailySummary.date).Nodup
    ∧ out.length = (datesOf raw).toFinset.card := by
  obtain ⟨pairs, hex, hout⟩ := dailyAggregate_eq_some raw out h
  subst hout
  have hdates : (toSummaries (dailyFold pairs)).map DailySummary.date
      = firstOccs (pairs.map Prod.fst) := by
    unfold toSummaries
    rw [List.map_map]
    have : (DailySummary.date ∘ fun e : String × ℚ × ℚ => (⟨e.1, e.2.1, e.2.2⟩ : DailySummary))
        = fun e : String × ℚ × ℚ => e.1 := rfl
    rw [this]
    unfold dailyFold firstOccs
    rw [dailyFold_map_fst pairs [], List.foldl_map, List.foldl_map, List.map_nil]
  rw [extractPairs_map_fst raw pairs hex]
  refine ⟨hdates, ?_, ?_⟩
  · rw [hdates]; exact firstOccs_nodup _
  · have hlen : (toSummaries (dailyFold pairs)).length
        = ((toSummaries (dailyFold pairs)).map DailySummary.date).length := by
      rw [List.length_map]
    rw [hlen, hdates, firstOccs_length]

/-- Witness for C2 at the one-sample input `[{dt_txt:"01-01 00:00:00", temp:3}]`. -/
theorem daily_one_summary_per_date_first_occurrence_order_w :
    ([(⟨"01-01", 3, 3⟩ : DailySummary)].map DailySummary.date
        = firstOccs (datesOf [(⟨"01-01 00:00:00", 3⟩ : RawItem)]))
    ∧ ([(⟨"01-01", 3, 3⟩ : DailySummary)].map DailySummary.date).Nodup
    ∧ [(⟨"01-01", 3, 3⟩ : DailySummary)].length
        = (datesOf [(⟨"01-01 00:00:00", 3⟩ : RawItem)]).toFinset.card :=
  daily_one_summary_per_date_first_occurrence_order
    [⟨"01-01 00:00:00", 3⟩] [⟨"01-01", 3, 3⟩] (by decide)

/-- C3: aggregating `[{date:"01-01", temp:10}, {date:"01-01", temp:15},
{date:"01-02", temp:5}]` yields exactly
`[{date:"01-01", min:10, max:15}, {date:"01-02", min:5, max:5}]`, in order. -/
theorem daily_aggregate_example :
    dailyAggregate [⟨"01-01", 10⟩, ⟨"01-01", 15⟩, ⟨"01-02", 5⟩]
      = some [⟨"01-01", 10, 15⟩, ⟨"01-02", 5, 5⟩] := by
  decide

/-- C4: aggregating the empty sequence of samples yields the empty sequence of
summaries. -/
theorem daily_aggregate_empty : dailyAggregate [] = some [] := rfl

/-- Branch lemma: an empty (or missing) city makes `POST /api/weather` return
400 before any network call or insert. -/
theorem api_weather_eq_of_empty_city (bodyCity : Option String) (p : OwmCurrent)
    (now : String) (h : pyStrip (bodyCity.getD "") = "") :
    api_weather bodyCity p now = ⟨400, .errMsg "City required", false, none⟩ := by
  unfold api_weather
  rw [h, if_pos rfl]

/-- Branch lemma: a nonempty city and a non-200 provider status make
`POST /api/weather` return 404 with no insert. -/
theorem api_weather_eq_of_non200 (bodyCity : Option String) (p : OwmCurrent)
    (now : String) (hc : ¬ pyStrip (bodyCity.getD "") = "") (h : p.status_code ≠ 200) :
    api_weather bodyCity p now
      = ⟨404, .errMsg "City not found or API error", true, none⟩ := by
  unfold api_weather
  rw [if_neg hc, if_pos h]

/-- Branch lemma: a nonempty city and a 200 provider status make
`POST /api/weather` build, insert and return the parsed record. -/
theorem api_weather_eq_of_200 (bodyCity : Option String) (p : OwmCurrent)
    (now : String) (hc : ¬ pyStrip (bodyCity.getD "") = "") (h : p.status_code = 200) :
    api_weather bodyCity p now
      = ⟨200,
          .ok ⟨pyStrip (bodyCity.getD ""), p.mainTemp, descOf p.weatherDescs, now⟩,
          true,
          some ⟨pyStrip (bodyCity.getD ""), p.mainTemp, descOf p.weatherDescs, now⟩⟩ := by
  unfold api_weather
  rw [if_neg hc, if_neg (not_ne_iff.mpr h)]

/-- Branch lemma: a non-200 provider status makes `GET /weather/<city>` return
its 404 page with no insert. -/
theorem show_weather_page_eq_of_non200 (city : String) (p : OwmCurrent)
    (now : String) (h : p.status_code ≠ 200) :
    show_weather_page city p now = ⟨404, .noData city, true, none⟩ := by
  unfold show_weather_page
  rw [if_pos h]

/-- `POST /api/weather` inserts a row only when the provider answered 200. -/
theorem api_weather_inserted_200 (bc : Option String) (q : OwmCurrent) (n : String)
    (hins : ((api_weather bc q n).inserted).isSome) : q.status_code = 200 := by
  by_cases hc : pyStrip (bc.getD "") = ""
  · rw [api_weather_eq_of_empty_city bc q n hc] at hins
    simp at hins
  · by_cases hq : q.status_code ≠ 200
    · rw [api_weather_eq_of_non200 bc q n hc hq] at hins
      simp at hins
    · exact not_ne_iff.mp hq

/-- `GET /weather/<city>` inserts a row only when the provider answered 200. -/
theorem show_weather_page_inserted_200 (c : String) (q : OwmCurrent) (n : String)
    (hins : ((show_weather_page c q n).inserted).isSome) : q.status_code = 200 := by
  by_cases hq : q.status_code ≠ 200
  · rw [show_weather_page_eq_of_non200 c q n hq] at hins
    simp at hins
  · exact not_ne_iff.mp hq

/-- C5: when the network call is made and the provider answers with a
non-200 status, both fetch endpoints answer 404 and insert nothing; and on
both endpoints a row is inserted only when the provider answered 200. -/
theorem fetch_non_success_is_404_and_no_insert
    (bodyCity : Option String) (city : String) (p : OwmCurrent) (now : String)
    (h : p.status_code ≠ 200) :
    ((api_weather bodyCity p now).networkCalled = true →
      (api_weather bodyCity p now).status = 404
      ∧ (api_weather bodyCity p now).inserted = none)
    ∧ (show_weather_page city p now).status = 404
    ∧ (show_weather_page city p now).inserted = none
    ∧ (∀ (bc : Option String) (q : OwmCurrent) (n : String),
        ((api_weather bc q n).inserted).isSome → q.status_code = 200)
    ∧ (∀ (c : String) (q : OwmCurrent) (n : String),
        ((show_weather_page c q n).inserted).isSome → q.status_code = 200) := by
  refine ⟨?_, ?_, ?_,
    fun bc q n hins => api_weather_inserted_200 bc q n hins,
    fun c q n hins => show_weather_page_inserted_200 c q n hins⟩
  · intro hnet
    by_cases hc : pyStrip (bodyCity.getD "") = ""
    · rw [api_weather_eq_of_empty_city bodyCity p now hc] at hnet
      exact absurd hnet (by simp)
    · rw [api_weather_eq_of_non200 bodyCity p now hc h]
      exact ⟨rfl, rfl⟩
  · rw [show_weather_page_eq_of_non200 city p now h]
  · rw [show_weather_page_eq_of_non200 city p now h]

/-- Witness for C5 at a 404 provider response and the city "Kabul". -/
theorem fetch_non_success_is_404_and_no_insert_w :
    ((api_weather (some "Kabul") ⟨404, none, []⟩ "t").networkCalled = true →
      (api_weather (some "Kabul") ⟨404, none, []⟩ "t").status = 404
      ∧ (api_weather (some "Kabul") ⟨404, none, []⟩ "t").inserted = none)
    ∧ (show_weather_page "Kabul" ⟨404, none, []⟩ "t").status = 404
    ∧ (show_weather_page "Kabul" ⟨404, none, []⟩ "t").inserted = none
    ∧ (∀ (bc : Option String) (q : OwmCurrent) (n : String),
        ((api_weather bc q n).inserted).isSome → q.status_code = 200)
    ∧ (∀ (c : String) (q : OwmCurrent) (n : String),
        ((show_weather_page c q n).inserted).isSome → q.status_code = 200) :=
  fetch_non_success_is_404_and_no_insert
    (some "Kabul") "Kabul" ⟨404, none, []⟩ "t" (by decide)

/-- C6: for every table state, the history endpoint returns at most 6 rows,
and they are the most recently inserted rows in descending insertion order
(the reversal of the table's final up-to-6 rows; the table is kept in
ascending `id` order, so this is descending `id`). -/
theorem api_history_at_most_six_most_recent_first (table : List WeatherRecord) :
    (api_history table).length ≤ 6
    ∧ api_history table = (table.drop (table.length - 6)).reverse := by
  constructor
  · unfold api_history
    rw [List.length_take]
    exact min_le_left _ _
  · unfold api_history
    rw [List.take_reverse]

/-- C7: a POST to `/api/weather` whose body has no city, or a city that strips
to the empty string, gets `{"error": "City required"}` with status 400, with
no network call made and no row inserted. -/
theorem api_weather_empty_city_400_no_call_no_insert
    (bodyCity : Option String) (p : OwmCurrent) (now : String)
    (h : pyStrip (bodyCity.getD "") = "") :
    api_weather bodyCity p now = ⟨400, .errMsg "City required", false, none⟩ :=
  api_weather_eq_of_empty_city bodyCity p now h

/-- Witness for C7 at a body with no city field. -/
theorem api_weather_empty_city_400_no_call_no_insert_w :
    api_weather none ⟨200, some 1, []⟩ "t"
      = ⟨400, .errMsg "City required", false, none⟩ :=
  api_weather_empty_city_400_no_call_no_insert none ⟨200, some 1, []⟩ "t" (by decide)

/-- C8: the weekly view returns exactly what the daily view returns, for every
city and provider response — it is a literal alias of the daily handler. -/
theorem weekly_is_alias_of_daily (city : String) (p : OwmForecast) :
    weekly_weather city p = daily_weather city p := rfl

/-- C9: on a successful forecast response the hourly view renders exactly the
first 8 entries of the provider's list in provider order; that is never more
than 8 entries, and it is the whole list when the list has at most 8 entries. -/
theorem hourly_renders_first_eight (city : String) (p : OwmForecast)
    (h : p.status_code = 200) :
    hourly_weather city p = .page city (p.list.take 8)
    ∧ (p.list.take 8).length ≤ 8
    ∧ (p.list.length ≤ 8 → p.list.take 8 = p.list) := by
  refine ⟨?_, ?_, ?_⟩
  · unfold hourly_weather
    rw [if_neg (by rw [h]; exact not_ne_iff.mpr rfl)]
  · rw [List.length_take]
    exact min_le_left _ _
  · intro hl
    exact List.take_of_length_le hl

/-- Witness for C9 at a 200 forecast response with a single entry. -/
theorem hourly_renders_first_eight_w :
    hourly_weather "Kabul" ⟨200, [⟨"01-01 00:00:00", 1⟩]⟩
      = .page "Kabul" ((⟨200, [⟨"01-01 00:00:00", 1⟩]⟩ : OwmForecast).list.take 8)
    ∧ (((⟨200, [⟨"01-01 00:00:00", 1⟩]⟩ : OwmForecast).list.take 8)).length ≤ 8
    ∧ (((⟨200, [⟨"01-01 00:00:00", 1⟩]⟩ : OwmForecast).list.length ≤ 8 →
        (⟨200, [⟨"01-01 00:00:00", 1⟩]⟩ : OwmForecast).list.take 8
          = (⟨200, [⟨"01-01 00:00:00", 1⟩]⟩ : OwmForecast).list)) :=
  hourly_renders_first_eight "Kabul" ⟨200, [⟨"01-01 00:00:00", 1⟩]⟩ (by decide)

/-- C10: a 200 provider response lacking `main.temp` or the `weather` list
still gives a 200 from `POST /api/weather`, and a row is inserted whose
temperature is null when `main.temp` was absent and whose description is empty
when the `weather` list was absent/empty. -/
theorem api_weather_missing_fields_still_200_inserts
    (c : String) (p : OwmCurrent) (now : String)
    (hc : ¬ pyStrip c = "") (h200 : p.status_code = 200)
    (hm : p.mainTemp = none ∨ p.weatherDescs = []) :
    (api_weather (some c) p now).status = 200
    ∧ ∃ r, (api_weather (some c) p now).inserted = some r
        ∧ (p.mainTemp = none → r.temperature = none)
        ∧ (p.weatherDescs = [] → r.description = "")
        ∧ (r.temperature = none ∨ r.description = "") := by
  rw [api_weather_eq_of_200 (some c) p now hc h200]
  refine ⟨rfl, ⟨pyStrip c, p.mainTemp, descOf p.weatherDescs, now⟩, rfl, ?_, ?_, ?_⟩
  · intro h; exact h
  · intro h; rw [h]; rfl
  · rcases hm with h | h
    · exact Or.inl h
    · exact Or.inr (by rw [h]; rfl)

/-- Witness for C10 at a 200 response with neither `main.temp` nor any
`weather` entry. -/
theorem api_weather_missing_fields_still_200_inserts_w :
    (api_weather (some "Kabul") ⟨200, none, []⟩ "t").status = 200
    ∧ ∃ r, (api_weather (some "Kabul") ⟨200, none, []⟩ "t").inserted = some r
        ∧ ((⟨200, none, []⟩ : OwmCurrent).mainTemp = none → r.temperature = none)
        ∧ ((⟨200, none, []⟩ : OwmCurrent).weatherDescs = [] → r.description = "")
        ∧ (r.temperature = none ∨ r.description = "") :=
  api_weather_missing_fields_still_200_inserts
    "Kabul" ⟨200, none, []⟩ "t" (by decide) (by decide) (Or.inl rfl)
